import Mathlib

/-!
# Verification of the API-key subsystem of the tcss460 movie-database API

This file gives a shallow embedding of the API-key issuance and
request-authentication middleware of the repository
(`server/src/middleware/apiKeyAuth.ts`,
`server/src/controllers/apiKeyControllers.ts`,
`server/src/middleware/apiKeyValidation.ts`) and proves the specified
properties of the embedding.

Machine integers are modelled as `Nat` with explicit reduction modulo
`2 ^ 32` where the source's cryptographic primitives operate on 32-bit
words.  Timestamps are modelled as `Int` seconds.  The external Key
Store (a relational table) is modelled as explicit lists of rows, and
its possible failures (query errors that the source observes as thrown
exceptions from `pool.query`) as explicit boolean failure flags.
-/

set_option maxRecDepth 20000

namespace TcssApi

/-! ## SHA-256 (`crypto.createHash('sha256').update(s).digest('hex')`)

The source hashes API keys with Node's SHA-256 over the UTF-8 bytes of
the key, emitting a lowercase hex digest.  We embed the full algorithm
over `Nat` words reduced modulo `2 ^ 32`. -/

/-- Truncate to a 32-bit word. -/
def w32 (n : Nat) : Nat := n % 4294967296

/-- Right-rotate a 32-bit word by `b` bits. -/
def rotr (b n : Nat) : Nat := w32 ((n >>> b) ||| (n <<< (32 - b)))

/-- Bitwise complement of a 32-bit word. -/
def bnot32 (n : Nat) : Nat := 4294967295 - n

/-- SHA-256 `Ch` function. -/
def shaCh (e f g : Nat) : Nat := (e &&& f) ^^^ (bnot32 e &&& g)

/-- SHA-256 `Maj` function. -/
def shaMaj (a b c : Nat) : Nat := (a &&& b) ^^^ (a &&& c) ^^^ (b &&& c)

/-- SHA-256 big sigma-0. -/
def bigSigma0 (a : Nat) : Nat := rotr 2 a ^^^ rotr 13 a ^^^ rotr 22 a

/-- SHA-256 big sigma-1. -/
def bigSigma1 (e : Nat) : Nat := rotr 6 e ^^^ rotr 11 e ^^^ rotr 25 e

/-- SHA-256 small sigma-0. -/
def smallSigma0 (x : Nat) : Nat := rotr 7 x ^^^ rotr 18 x ^^^ (x >>> 3)

/-- SHA-256 small sigma-1. -/
def smallSigma1 (x : Nat) : Nat := rotr 17 x ^^^ rotr 19 x ^^^ (x >>> 10)

/-- UTF-8 encoding of one character (Node's default encoding for
`hash.update` on a string). -/
def utf8EncodeChar (c : Char) : List Nat :=
  let n := c.toNat
  if n < 128 then [n]
  else if n < 2048 then [192 + n / 64, 128 + n % 64]
  else if n < 65536 then [224 + n / 4096, 128 + (n / 64) % 64, 128 + n % 64]
  else [240 + n / 262144, 128 + (n / 4096) % 64, 128 + (n / 64) % 64, 128 + n % 64]

/-- UTF-8 encoding of a string as a byte list. -/
def utf8Encode (s : String) : List Nat := (s.data.map utf8EncodeChar).flatten

/-- The 8-byte big-endian encoding of the bit length. -/
def lengthBytes (n : Nat) : List Nat :=
  [(n >>> 56) % 256, (n >>> 48) % 256, (n >>> 40) % 256, (n >>> 32) % 256,
   (n >>> 24) % 256, (n >>> 16) % 256, (n >>> 8) % 256, n % 256]

/-- SHA-256 padding: append `0x80`, zero bytes, and the 64-bit bit
length, reaching a multiple of 64 bytes. -/
def padMessage (bytes : List Nat) : List Nat :=
  let len := bytes.length
  bytes ++ [128] ++ List.replicate ((119 - len % 64) % 64) 0 ++ lengthBytes (8 * len)

/-- Group bytes into big-endian 32-bit words. -/
def bytesToWords : List Nat → List Nat
  | b0 :: b1 :: b2 :: b3 :: rest =>
      ((b0 <<< 24) ||| (b1 <<< 16) ||| (b2 <<< 8) ||| b3) :: bytesToWords rest
  | _ => []

/-- Working state of the SHA-256 compression function. -/
structure Sha256State where
  a : Nat
  b : Nat
  c : Nat
  d : Nat
  e : Nat
  f : Nat
  g : Nat
  h : Nat

/-- The SHA-256 initial hash value. -/
def shaInit : Sha256State :=
  ⟨1779033703, 3144134277, 1013904242, 2773480762,
   1359893119, 2600822924, 528734635, 1541459225⟩

/-- The 64 SHA-256 round constants. -/
def kConst : List Nat :=
  [1116352408, 1899447441, 3049323471, 3921009573, 961987163,
   1508970993, 2453635748, 2870763221, 3624381080, 310598401,
   607225278, 1426881987, 1925078388, 2162078206, 2614888103,
   3248222580, 3835390401, 4022224774, 264347078, 604807628,
   770255983, 1249150122, 1555081692, 1996064986, 2554220882,
   2821834349, 2952996808, 3210313671, 3336571891, 3584528711,
   113926993, 338241895, 666307205, 773529912, 1294757372,
   1396182291, 1695183700, 1986661051, 2177026350, 2456956037,
   2730485921, 2820302411, 3259730800, 3345764771, 3516065817,
   3600352804, 4094571909, 275423344, 430227734, 506948616,
   659060556, 883997877, 958139571, 1322822218, 1537002063,
   1747873779, 1955562222, 2024104815, 2227730452, 2361852424,
   2428436474, 2756734187, 3204031479, 3329325298]

/-- The next message-schedule word, computed from the reversed list of
schedule words produced so far (most recent first). -/
def schedNext (ws : List Nat) : Nat :=
  w32 (smallSigma1 (ws.getD 1 0) + ws.getD 6 0 + smallSigma0 (ws.getD 14 0) + ws.getD 15 0)

/-- Extend the (reversed) message schedule by `n` words. -/
def extendSched : Nat → List Nat → List Nat
  | 0, ws => ws
  | n + 1, ws => extendSched n (schedNext ws :: ws)

/-- One SHA-256 compression round. -/
def shaRound (st : Sha256State) (wi ki : Nat) : Sha256State :=
  let t1 := w32 (st.h + bigSigma1 st.e + shaCh st.e st.f st.g + ki + wi)
  let t2 := w32 (bigSigma0 st.a + shaMaj st.a st.b st.c)
  ⟨w32 (t1 + t2), st.a, st.b, st.c, w32 (st.d + t1), st.e, st.f, st.g⟩

/-- Compress one 16-word block into the running hash state. -/
def compressBlock (st : Sha256State) (block : List Nat) : Sha256State :=
  let ws := (extendSched 48 block.reverse).reverse
  let fin := (ws.zip kConst).foldl (fun s p => shaRound s p.1 p.2) st
  ⟨w32 (st.a + fin.a), w32 (st.b + fin.b), w32 (st.c + fin.c), w32 (st.d + fin.d),
   w32 (st.e + fin.e), w32 (st.f + fin.f), w32 (st.g + fin.g), w32 (st.h + fin.h)⟩

/-- Consume the padded message, 16 words at a time. -/
def processBlocks (st : Sha256State) : List Nat → Sha256State
  | w0 :: w1 :: w2 :: w3 :: w4 :: w5 :: w6 :: w7 ::
    w8 :: w9 :: w10 :: w11 :: w12 :: w13 :: w14 :: w15 :: rest =>
      processBlocks
        (compressBlock st [w0, w1, w2, w3, w4, w5, w6, w7, w8, w9, w10, w11, w12, w13, w14, w15])
        rest
  | _ => st

/-- Lowercase hex digit for `n % 16`: `0`–`9` then `a`–`f`. -/
def hexDigit (n : Nat) : Char :=
  Char.ofNat (if n % 16 < 10 then 48 + n % 16 else 87 + n % 16)

/-- Eight lowercase hex characters of a 32-bit word, big-endian. -/
def wordToHex (w : Nat) : List Char :=
  [hexDigit (w >>> 28), hexDigit (w >>> 24), hexDigit (w >>> 20), hexDigit (w >>> 16),
   hexDigit (w >>> 12), hexDigit (w >>> 8), hexDigit (w >>> 4), hexDigit w]

/-- SHA-256 of a string, as a 64-character lowercase hex digest —
the embedding of `crypto.createHash('sha256').update(s).digest('hex')`. -/
def sha256hex (s : String) : String :=
  let st := processBlocks shaInit (bytesToWords (padMessage (utf8Encode s)))
  String.mk (([st.a, st.b, st.c, st.d, st.e, st.f, st.g, st.h].map wordToHex).flatten)

example : sha256hex "abc" =
    "ba7816bf8f01cfea414140de5dae2223b00361a396177a9cb410ff61f20015ad" := by decide

example : sha256hex "" =
    "e3b0c44298fc1c149afbf4c8996fb92427ae41e4649b934ca495991b7852b855" := by decide

/-! ## Secret generation (`generateSecureApiKey`)

`server/src/controllers/apiKeyControllers.ts` draws 32 random bytes
(`crypto.randomBytes(32)`), encodes them as standard base64, and makes
the result URL-safe with `replace(/\+/g,'-').replace(/\//g,'_').replace(/=/g,'')`.
The random bytes are the function's input here, so that the embedding is
a pure function of the entropy drawn. -/

/-- The standard base64 alphabet. -/
def b64Alphabet : List Char :=
  ['A', 'B', 'C', 'D', 'E', 'F', 'G', 'H', 'I', 'J', 'K', 'L', 'M',
   'N', 'O', 'P', 'Q', 'R', 'S', 'T', 'U', 'V', 'W', 'X', 'Y', 'Z',
   'a', 'b', 'c', 'd', 'e', 'f', 'g', 'h', 'i', 'j', 'k', 'l', 'm',
   'n', 'o', 'p', 'q', 'r', 's', 't', 'u', 'v', 'w', 'x', 'y', 'z',
   '0', '1', '2', '3', '4', '5', '6', '7', '8', '9', '+', '/']

/-- The base64 character for a 6-bit group. -/
def b64At (n : Nat) : Char := b64Alphabet.getD (n % 64) 'A'

/-- Standard base64 encoding of a byte list, including `=` padding
(the behaviour of `Buffer.toString('base64')`). -/
def base64Chars : List Nat → List Char
  | b1 :: b2 :: b3 :: rest =>
      b64At (b1 >>> 2) :: b64At (((b1 &&& 3) <<< 4) ||| (b2 >>> 4)) ::
      b64At (((b2 &&& 15) <<< 2) ||| (b3 >>> 6)) :: b64At (b3 &&& 63) :: base64Chars rest
  | [b1, b2] =>
      [b64At (b1 >>> 2), b64At (((b1 &&& 3) <<< 4) ||| (b2 >>> 4)),
       b64At ((b2 &&& 15) <<< 2), '=']
  | [b1] =>
      [b64At (b1 >>> 2), b64At ((b1 &&& 3) <<< 4), '=', '=']
  | [] => []

/-- The URL-safe substitution `+` → `-`, `/` → `_` applied by the two
`replace` calls. -/
def urlSafeChar (c : Char) : Char :=
  if c = '+' then '-' else if c = '/' then '_' else c

/-- Embedding of `generateSecureApiKey`, as a function of the 32 random
bytes drawn from `crypto.randomBytes`: base64-encode, substitute the
characters outside the URL-safe set, and strip the `=` padding. -/
def generateSecureApiKey (bytes : List Nat) : String :=
  String.mk (((base64Chars bytes).map urlSafeChar).filter (fun c => c ≠ '='))

example : generateSecureApiKey (List.replicate 32 0) =
    "AAAAAAAAAAAAAAAAAAAAAAAAAAAAAAAAAAAAAAAAAAA" := by decide

example : (generateSecureApiKey (List.replicate 32 255)).length = 43 := by decide

/-! ## Data model

The store rows follow the columns read and written by the subsystem
(`api_keys` and `api_key_usage`).  Timestamps are `Int` seconds;
`expires_at`, `last_used_at`, `email`, `ip_address` and `user_agent`
are nullable. -/

/-- One row of the `api_keys` table, with the columns this subsystem
reads and writes.  `api_key` holds the hashed secret. -/
structure ApiKeyRow where
  api_key_id : Nat
  api_key : String
  name : String
  email : Option String
  rate_limit : Nat
  is_active : Bool
  expires_at : Option Int
  last_used_at : Option Int
  created_at : Int
deriving DecidableEq

/-- One row of the `api_key_usage` table (append-only audit entry). -/
structure UsageRecord where
  api_key_id : Nat
  endpoint : String
  method : String
  ip_address : Option String
  user_agent : Option String
  requested_at : Int
deriving DecidableEq

/-- The Key Store as visible to this subsystem, together with failure
flags for the two read queries on the decision path: `lookupFails`
models `pool.query` throwing on the lookup by hash (caught by the outer
`try` of `requireApiKey`), and `countFails` models the rate-limit count
query throwing (caught inside `checkRateLimit`). -/
structure StoreBehavior where
  keys : List ApiKeyRow
  usage : List UsageRecord
  lookupFails : Bool
  countFails : Bool
deriving DecidableEq

/-- Rows of `api_keys` whose `api_key` column equals the given hash —
the result set of `SELECT ... FROM api_keys WHERE api_key = $1`. -/
def lookupByHash (keys : List ApiKeyRow) (hashed : String) : List ApiKeyRow :=
  keys.filter (fun k => k.api_key == hashed)

/-- `SELECT COUNT(*) FROM api_key_usage WHERE api_key_id = $1 AND
requested_at > NOW() - INTERVAL '1 hour'`, with `now` in seconds. -/
def countUsageInWindow (usage : List UsageRecord) (keyId : Nat) (now : Int) : Nat :=
  (usage.filter (fun r => r.api_key_id == keyId && decide (r.requested_at > now - 3600))).length

/-- The identity object the middleware attaches to the request
(`req.apiKey`) before calling `next()`. -/
structure Identity where
  api_key_id : Nat
  name : String
  email : Option String
  rate_limit : Nat
deriving DecidableEq

/-- The middleware's per-request outcome: either short-circuit with an
HTTP status and message, or attach the identity and continue to the
next handler. -/
inductive Decision where
  | respond (status : Nat) (message : String)
  | next (identity : Identity)
deriving DecidableEq

/-! ## Authentication middleware (`requireApiKey`, `checkRateLimit`)

`middleware/apiKeyAuth.ts` and `controllers/apiKeyControllers.ts` each
define a local `hashApiKey` with the identical body
`crypto.createHash('sha256').update(apiKey).digest('hex')`; both are
embedded, in namespaces named after their files. -/

namespace ApiKeyAuth

/-- `hashApiKey` of `middleware/apiKeyAuth.ts`. -/
def hashApiKey (apiKey : String) : String := sha256hex apiKey

end ApiKeyAuth

namespace ApiKeyControllers

/-- `hashApiKey` of `controllers/apiKeyControllers.ts`. -/
def hashApiKey (apiKey : String) : String := sha256hex apiKey

end ApiKeyControllers

/-- The JavaScript falsiness test `if (!providedKey)` on
`req.headers['x-api-key']`: true when the header is absent
(`undefined`) or the empty string. -/
def isMissingKey : Option String → Bool
  | none => true
  | some s => s == ""

/-- Expiry test of the middleware:
`keyData.expires_at && new Date(keyData.expires_at) < new Date()`. -/
def isExpired : Option Int → Int → Bool
  | some e, now => decide (e < now)
  | none, _ => false

/-- Embedding of `checkRateLimit`: count the usage rows of the key in
the trailing hour and compare with the limit; if the count query throws
(`sb.countFails`), the `catch` returns `true` (fail open). -/
def checkRateLimit (sb : StoreBehavior) (apiKeyId : Nat) (rateLimit : Nat) (now : Int) : Bool :=
  if sb.countFails then true
  else countUsageInWindow sb.usage apiKeyId now < rateLimit

/-- The decision path of `requireApiKey`: extract the header, hash,
look up, check active / expiry / rate limit, and either short-circuit
with a status or attach the identity and continue.  A throwing lookup
query is caught by the outer `try` and answered with 500. -/
def requireApiKeyDecision (providedKey : Option String) (sb : StoreBehavior) (now : Int) :
    Decision :=
  if isMissingKey providedKey then
    .respond 401 "API key is required. Include X-API-Key header."
  else if sb.lookupFails then
    .respond 500 "Authentication failed"
  else
    match lookupByHash sb.keys (ApiKeyAuth.hashApiKey (providedKey.getD "")) with
    | [] => .respond 401 "Invalid API key"
    | keyData :: _ =>
      if !keyData.is_active then
        .respond 403 "API key has been revoked"
      else if isExpired keyData.expires_at now then
        .respond 403 "API key has expired"
      else if !checkRateLimit sb keyData.api_key_id keyData.rate_limit now then
        .respond 429 "Rate limit exceeded. Please try again later."
      else
        .next ⟨keyData.api_key_id, keyData.name, keyData.email, keyData.rate_limit⟩

/-- `UPDATE api_keys SET last_used_at = NOW() WHERE api_key_id = $1`. -/
def updateLastUsed (keys : List ApiKeyRow) (apiKeyId : Nat) (now : Int) : List ApiKeyRow :=
  keys.map (fun k => if k.api_key_id == apiKeyId then { k with last_used_at := some now } else k)

/-- `INSERT INTO api_key_usage (...)`, with the server-assigned
`requested_at` timestamp. -/
def logApiKeyUsage (usage : List UsageRecord) (apiKeyId : Nat) (endpoint method : String)
    (ipAddress userAgent : Option String) (now : Int) : List UsageRecord :=
  usage ++ [⟨apiKeyId, endpoint, method, ipAddress, userAgent, now⟩]

/-- The request metadata captured by the usage logger. -/
structure ReqMeta where
  path : String
  method : String
  ip : Option String
  agent : Option String
deriving DecidableEq

/-- One full pass of `requireApiKey` over the store: the decision plus
the store as left by the two fire-and-forget side effects.  The flags
model each side-effect promise rejecting; the source attaches `.catch`
to both, so a failed side effect leaves the store unchanged and is only
logged — the decision has already been computed. -/
def stepRequest (providedKey : Option String) (sb : StoreBehavior) (now : Int) (req : ReqMeta)
    (updateLastUsedFails insertUsageFails : Bool) : Decision × StoreBehavior :=
  match requireApiKeyDecision providedKey sb now with
  | .next ident =>
      let keys1 :=
        if updateLastUsedFails then sb.keys else updateLastUsed sb.keys ident.api_key_id now
      let usage1 :=
        if insertUsageFails then sb.usage
        else logApiKeyUsage sb.usage ident.api_key_id req.path req.method req.ip req.agent now
      (.next ident, { sb with keys := keys1, usage := usage1 })
  | d => (d, sb)

/-- A sequence of requests presenting the same key at the given
timestamps, each applied to the store left by the previous one (side
effects succeeding). -/
def runTrace (providedKey : Option String) (req : ReqMeta) :
    StoreBehavior → List Int → List Decision × StoreBehavior
  | sb, [] => ([], sb)
  | sb, t :: ts =>
      let s := stepRequest providedKey sb t req false false
      let r := runTrace providedKey req s.2 ts
      (s.1 :: r.1, r.2)

/-! ## Issuance (`validateGenerateApiKey`, `generateApiKeyController`) -/

/-- A field-scoped validation error (`{ field, message }`). -/
structure FieldError where
  field : String
  message : String
deriving DecidableEq

/-- The issuance endpoint's response. `created` carries HTTP 201,
`badRequest` 400, `serverError` 500. -/
inductive IssueResponse where
  | created (api_key : String) (name : String) (email : Option String)
      (rate_limit : Nat) (created_at : Int)
  | badRequest (errors : List FieldError)
  | serverError (message : String)
deriving DecidableEq

/-- The HTTP status of an issuance response. -/
def statusOf : IssueResponse → Nat
  | .created _ _ _ _ _ => 201
  | .badRequest _ => 400
  | .serverError _ => 500

/-- The request body of `POST /api-key` as this subsystem reads it:
each field either absent or a string. -/
structure RequestBody where
  name : Option String
  email : Option String
deriving DecidableEq

/-- The validated, transformed body the controller receives. -/
structure ValidatedBody where
  name : String
  email : Option String
deriving DecidableEq

/-- Collapse every maximal whitespace run into a single space — the
`transform(val => val.replace(/\s+/g, ' '))` of the name schema.  The
boolean records whether the previous character was whitespace. -/
def collapseWSAux : Bool → List Char → List Char
  | _, [] => []
  | prevWS, c :: cs =>
      if c.isWhitespace then
        if prevWS then collapseWSAux true cs else ' ' :: collapseWSAux true cs
      else c :: collapseWSAux false cs

/-- Whitespace normalization applied to the accepted name. -/
def normalizeWhitespace (s : String) : String := String.mk (collapseWSAux false s.data)

/-- JavaScript `String.prototype.trim()`: strip leading and trailing
whitespace. -/
def jsTrim (s : String) : String :=
  String.mk (((s.data.dropWhile Char.isWhitespace).reverse.dropWhile Char.isWhitespace).reverse)

/-- JavaScript `String.prototype.toLowerCase()` on the characters. -/
def jsToLower (s : String) : String := String.mk (s.data.map Char.toLower)

/-- Characters the email pattern accepts in the local part. -/
def isEmailLocalChar (c : Char) : Bool :=
  c.isAlpha || c.isDigit || c = '_' || c = '+' || c = '-' || c = '.' || c = Char.ofNat 39

/-- Characters the email pattern requires immediately before the `@`. -/
def isEmailLocalEnd (c : Char) : Bool :=
  c.isAlpha || c.isDigit || c = '_' || c = '+' || c = '-'

/-- One non-final domain label: alphanumeric head, alphanumeric or
hyphen tail. -/
def isDomainLabel (l : List Char) : Bool :=
  match l with
  | [] => false
  | c :: cs => (c.isAlpha || c.isDigit) && cs.all (fun d => d.isAlpha || d.isDigit || d = '-')

/-- The final label: at least two letters. -/
def isTld (l : List Char) : Bool := decide (2 ≤ l.length) && l.all Char.isAlpha

/-- Whether two consecutive dots occur. -/
def hasDoubleDot : List Char → Bool
  | [] => false
  | [_] => false
  | a :: b :: rest => (a = '.' && b = '.') || hasDoubleDot (b :: rest)

/-- Split a character list at every occurrence of `sep` (the splitter
semantics of `String.splitOn` for a one-character separator). -/
def splitOnChar (sep : Char) : List Char → List (List Char)
  | [] => [[]]
  | c :: cs =>
      match splitOnChar sep cs with
      | [] => if c = sep then [[], [c]] else [[c]]
      | h :: t => if c = sep then [] :: h :: t else (c :: h) :: t

/-- Modelled from the spec: the "valid email format" check is `z.email()`
of the zod library, which is not part of the repository; this follows
zod's documented default email pattern — a local part of word
characters, apostrophe, `+`, `-` and non-consecutive dots, not
starting with a dot and not ending the local part with a dot or
apostrophe, one `@`, and a hyphenated alphanumeric domain ending in an
alphabetic label of length at least two. -/
def isValidEmail (s : String) : Bool :=
  match splitOnChar '@' s.data with
  | [lc, domain] =>
      (!lc.isEmpty) && lc.all isEmailLocalChar &&
        (match lc.getLast? with
         | some c => isEmailLocalEnd c
         | none => false) &&
        (match lc with
         | c :: _ => c ≠ '.'
         | [] => false) &&
        !hasDoubleDot s.data &&
        (let dparts := splitOnChar '.' domain
         decide (2 ≤ dparts.length) &&
           dparts.dropLast.all isDomainLabel &&
           (match dparts.getLast? with
            | some t => isTld t
            | none => false))
  | _ => false

example : isValidEmail "alice@example.com" = true := by decide
example : isValidEmail "ALICE+tag@sub.example.com" = true := by decide
example : isValidEmail " alice@example.com " = false := by decide
example : isValidEmail "alice@example" = false := by decide
example : isValidEmail "" = false := by decide

/-- The `name` branch of `generateApiKeySchema`:
`z.string().min(1).max(255).trim().transform(normalize whitespace)`.
Zod runs checks and transforms in chain order, so the length bounds
apply to the raw value and trimming/normalization to the accepted
value. A missing or non-string `name` fails the base string check with
the configured "Name is required" error. -/
def validateName : Option String → Except FieldError String
  | none => .error ⟨"name", "Name is required"⟩
  | some s =>
      if s.length < 1 then .error ⟨"name", "Name must be at least 1 character"⟩
      else if 255 < s.length then .error ⟨"name", "Name must not exceed 255 characters"⟩
      else .ok (normalizeWhitespace (jsTrim s))

/-- The `email` branch of `generateApiKeySchema`:
`z.email().max(255).trim().toLowerCase().optional().or(z.literal('')).transform('' → undefined)`.
An absent email passes through `optional()`; the empty string matches
the `z.literal('')` union branch and is transformed to absent; any
other value must pass the email pattern on the raw value and the
255-character bound, and is then trimmed and lowercased. -/
def validateEmail : Option String → Except FieldError (Option String)
  | none => .ok none
  | some s =>
      if s == "" then .ok none
      else if !isValidEmail s then .error ⟨"email", "Invalid email address"⟩
      else if 255 < s.length then .error ⟨"email", "Email must not exceed 255 characters"⟩
      else .ok (some (jsToLower (jsTrim s)))

/-- Embedding of the `validateGenerateApiKey` middleware: `safeParse`
against the object schema, collecting one `{field, message}` issue per
failing field (name first, then email); on success the body is replaced
by the validated, transformed data. -/
def validateGenerateApiKey (body : RequestBody) : Except (List FieldError) ValidatedBody :=
  match validateName body.name, validateEmail body.email with
  | .ok n, .ok e => .ok ⟨n, e⟩
  | .error e1, .error e2 => .error [e1, e2]
  | .error e1, .ok _ => .error [e1]
  | .ok _, .error e2 => .error [e2]

/-- Embedding of `generateApiKeyController` on a validated body: draw
the 32 random bytes, encode (`generateSecureApiKey`), hash, insert one
`api_keys` row with `is_active = true` and `rate_limit = 1000`, and
answer 201 with the plaintext key and the returned metadata.
`newId` is the id the store assigns to the inserted row, `now` its
`created_at`; `insertFails` models the insert throwing, answered by the
`catch` with 500. -/
def generateApiKeyController (body : ValidatedBody) (randomBytes : List Nat) (newId : Nat)
    (now : Int) (sb : StoreBehavior) (insertFails : Bool) : IssueResponse × StoreBehavior :=
  let plainTextApiKey := generateSecureApiKey randomBytes
  let hashedApiKey := ApiKeyControllers.hashApiKey plainTextApiKey
  if insertFails then (.serverError "Failed to generate API key", sb)
  else
    let row : ApiKeyRow :=
      ⟨newId, hashedApiKey, body.name, body.email, 1000, true, none, none, now⟩
    (.created plainTextApiKey body.name body.email row.rate_limit now,
     { sb with keys := sb.keys ++ [row] })

/-- The route `publicRouter.post('/api-key', validateGenerateApiKey,
generateApiKeyController)`: the validation middleware runs first and a
rejected request never reaches the controller. -/
def handleGenerateApiKey (body : RequestBody) (randomBytes : List Nat) (newId : Nat)
    (now : Int) (sb : StoreBehavior) (insertFails : Bool) : IssueResponse × StoreBehavior :=
  match validateGenerateApiKey body with
  | .error errs => (.badRequest errs, sb)
  | .ok vb => generateApiKeyController vb randomBytes newId now sb insertFails

example : validateGenerateApiKey ⟨some "  Alice   Smith ", some "ALICE@Example.com"⟩ =
    .ok ⟨"Alice Smith", some "alice@example.com"⟩ := by rfl

example : validateGenerateApiKey ⟨none, some "nope"⟩ =
    .error [⟨"name", "Name is required"⟩, ⟨"email", "Invalid email address"⟩] := by rfl

example : validateGenerateApiKey ⟨some " ", none⟩ = .ok ⟨"", none⟩ := by rfl

/-! ## Specification-side definitions

These are written from the specification's wording (spec §4.4, §6 and
§4.5), to be compared with the embedded middleware. -/

/-- Spec wording: "a matching active key whose `expires_at` is set and
in the past". -/
def specKeyExpired (expires_at : Option Int) (now : Int) : Bool :=
  expires_at.any (fun t => decide (t < now))

/-- Spec wording: "a matching active unexpired key over its rate
limit" — at least `rate_limit` usage records in the trailing hour; a
failed count query fails open, so it never puts a key over the
limit. -/
def specOverLimit (sb : StoreBehavior) (kd : ApiKeyRow) (now : Int) : Bool :=
  !sb.countFails && decide (kd.rate_limit ≤ countUsageInWindow sb.usage kd.api_key_id now)

/-- The decision table of the Authentication Middleware exactly as the
specification's failure-response list states it: missing key header or
no stored key whose hashed secret equals the hash of the presented key
→ 401; matching key inactive → 403; matching active key expired → 403;
rate limit exceeded → 429; unexpected store/lookup error → 500;
otherwise allow with the identity attached. -/
def specDecision (providedKey : Option String) (sb : StoreBehavior) (now : Int) : Decision :=
  if providedKey.getD "" = "" then
    .respond 401 "API key is required. Include X-API-Key header."
  else if sb.lookupFails then
    .respond 500 "Authentication failed"
  else
    match sb.keys.find? (fun k => k.api_key == ApiKeyAuth.hashApiKey (providedKey.getD "")) with
    | none => .respond 401 "Invalid API key"
    | some kd =>
        if kd.is_active = false then
          .respond 403 "API key has been revoked"
        else if specKeyExpired kd.expires_at now then
          .respond 403 "API key has expired"
        else if specOverLimit sb kd now then
          .respond 429 "Rate limit exceeded. Please try again later."
        else
          .next ⟨kd.api_key_id, kd.name, kd.email, kd.rate_limit⟩

/-! ## Supporting lemmas -/

/-- The first element kept by `filter` is the element `find?` returns. -/
lemma head?_filter_eq_find? (p : α → Bool) : ∀ l : List α, (l.filter p).head? = l.find? p := by
  intro l
  induction l with
  | nil => rfl
  | cons a t ih =>
      by_cases h : p a
      · simp [List.filter_cons, h]
      · simp [List.filter_cons, h, ih]

/-- The middleware's rate branch agrees with the spec's "over its rate
limit" condition. -/
lemma not_checkRateLimit_eq_specOverLimit (sb : StoreBehavior) (kd : ApiKeyRow) (now : Int) :
    (!checkRateLimit sb kd.api_key_id kd.rate_limit now) = specOverLimit sb kd now := by
  unfold checkRateLimit specOverLimit
  cases hc : sb.countFails
  · by_cases h : countUsageInWindow sb.usage kd.api_key_id now < kd.rate_limit
    · have h2 : ¬kd.rate_limit ≤ countUsageInWindow sb.usage kd.api_key_id now := by omega
      simp [h, h2]
    · have h2 : kd.rate_limit ≤ countUsageInWindow sb.usage kd.api_key_id now := by omega
      simp [h, h2]
  · simp

/-- The middleware's expiry test agrees with the spec's "set and in the
past" condition. -/
lemma isExpired_eq_specKeyExpired (e : Option Int) (now : Int) :
    isExpired e now = specKeyExpired e now := by
  cases e <;> rfl

/-! ## Claims -/

/-- C1: For every inbound request to a protected route, the
Authentication Middleware's decision maps exhaustively to exactly one
outcome: missing `X-API-Key` header or no stored key whose hashed
secret equals the hash of the presented key yields 401; a matching key
with `is_active` false yields 403; a matching active key whose
`expires_at` is set and in the past yields 403; a matching active
unexpired key over its rate limit yields 429; an unexpected
store/lookup error yields 500; otherwise the request is allowed and
passed on with the identity attached.  Stated as: the embedded decision
path coincides with the specification's decision table at every
input. -/
theorem claim_C1_decision_table (pk : Option String) (sb : StoreBehavior) (now : Int) :
    requireApiKeyDecision pk sb now = specDecision pk sb now := by
  rcases pk with _ | s
  · rfl
  by_cases hs : s = ""
  · subst hs; rfl
  unfold requireApiKeyDecision specDecision
  have hmiss : isMissingKey (some s) = false := by simp [isMissingKey, hs]
  rw [hmiss]
  simp only [Bool.false_eq_true, if_false, Option.getD_some, if_neg hs]
  cases hlf : sb.lookupFails
  · simp only [Bool.false_eq_true, if_false]
    have hf := head?_filter_eq_find? (fun k => k.api_key == ApiKeyAuth.hashApiKey s) sb.keys
    unfold lookupByHash
    cases hl : sb.keys.filter (fun k => k.api_key == ApiKeyAuth.hashApiKey s) with
    | nil =>
        rw [hl] at hf
        rw [← hf]
        simp
    | cons kd tl =>
        rw [hl] at hf
        rw [← hf]
        simp only [List.head?_cons]
        rw [not_checkRateLimit_eq_specOverLimit, isExpired_eq_specKeyExpired]
        cases hact : kd.is_active <;> simp
  · simp

/-- The HTTP status of a decision; an allowed request proceeds with
200-family handling downstream. -/
def decisionStatus : Decision → Nat
  | .respond st _ => st
  | .next _ => 200

/-- A presented key whose first store match is inactive or expired is
answered 403, whatever the usage table and the count query's health. -/
lemma decision_403_of_revoked_or_expired (s : String) (sb : StoreBehavior) (now : Int)
    (kd : ApiKeyRow) (tl : List ApiKeyRow)
    (hs : s ≠ "") (hlf : sb.lookupFails = false)
    (hlook : lookupByHash sb.keys (ApiKeyAuth.hashApiKey s) = kd :: tl)
    (hrev : kd.is_active = false ∨ isExpired kd.expires_at now = true) :
    decisionStatus (requireApiKeyDecision (some s) sb now) = 403 := by
  unfold requireApiKeyDecision
  have hmiss : isMissingKey (some s) = false := by simp [isMissingKey, hs]
  rw [hmiss]
  simp only [Bool.false_eq_true, if_false, Option.getD_some, hlf, hlook]
  cases hact : kd.is_active
  · simp [decisionStatus]
  · rcases hrev with h | h
    · rw [hact] at h; cases h
    · simp [h, decisionStatus]

/-- C10: A request whose `X-API-Key` header is the empty string is
treated exactly like a missing header: 401 with the "API key is
required" message, never "Invalid API key" — and since this holds for
every store state, including one whose lookup query would fail, the
denial happens before any hashing or store lookup. -/
theorem claim_C10_empty_key_like_missing (sb : StoreBehavior) (now : Int) :
    requireApiKeyDecision (some "") sb now =
      .respond 401 "API key is required. Include X-API-Key header." ∧
    requireApiKeyDecision (some "") sb now = requireApiKeyDecision none sb now :=
  ⟨rfl, rfl⟩

/-- C5: For every request, the decision of the full middleware pass —
side effects included — equals the pure decision, whatever the outcome
of the `last_used_at` update and the usage insert; so a failure of
either best-effort side effect never changes an ALLOW into an error
response, and the identity is still attached and the next handler still
reached. -/
theorem claim_C5_side_effect_failure_never_changes_decision
    (pk : Option String) (sb : StoreBehavior) (now : Int) (req : ReqMeta)
    (updFail insFail : Bool) :
    (stepRequest pk sb now req updFail insFail).1 = requireApiKeyDecision pk sb now ∧
    (stepRequest pk sb now req updFail insFail).1 = (stepRequest pk sb now req false false).1 := by
  constructor
  · unfold stepRequest
    cases h : requireApiKeyDecision pk sb now <;> simp
  · unfold stepRequest
    cases h : requireApiKeyDecision pk sb now <;> simp

/-- C4: If the rate-limit count query fails, the rate check returns
allowed (fail-open), and a request with a matching active unexpired key
proceeds to ALLOW rather than being denied with 429 or 500. -/
theorem claim_C4_rate_limit_fail_open
    (sb : StoreBehavior) (now : Int) (s : String) (kd : ApiKeyRow) (tl : List ApiKeyRow)
    (apiKeyId rateLimit : Nat)
    (hcf : sb.countFails = true)
    (hs : s ≠ "")
    (hlf : sb.lookupFails = false)
    (hlook : lookupByHash sb.keys (ApiKeyAuth.hashApiKey s) = kd :: tl)
    (hact : kd.is_active = true)
    (hexp : isExpired kd.expires_at now = false) :
    checkRateLimit sb apiKeyId rateLimit now = true ∧
    requireApiKeyDecision (some s) sb now =
      .next ⟨kd.api_key_id, kd.name, kd.email, kd.rate_limit⟩ := by
  constructor
  · simp [checkRateLimit, hcf]
  · unfold requireApiKeyDecision
    have hmiss : isMissingKey (some s) = false := by simp [isMissingKey, hs]
    rw [hmiss]
    simp [hlf, hlook, hact, hexp, checkRateLimit, hcf]

/-- Witness for C4 at a concrete store: one active key, the count query
failing, a rate limit of zero — the request is still allowed. -/
theorem claim_C4_witness :
    checkRateLimit ⟨[⟨1, ApiKeyAuth.hashApiKey "k", "Alice", none, 1000, true, none, none, 0⟩],
        [], false, true⟩ 1 0 5 = true ∧
    requireApiKeyDecision (some "k")
        ⟨[⟨1, ApiKeyAuth.hashApiKey "k", "Alice", none, 1000, true, none, none, 0⟩],
         [], false, true⟩ 5 =
      .next ⟨1, "Alice", none, 1000⟩ :=
  claim_C4_rate_limit_fail_open
    ⟨[⟨1, ApiKeyAuth.hashApiKey "k", "Alice", none, 1000, true, none, none, 0⟩], [], false, true⟩
    5 "k" ⟨1, ApiKeyAuth.hashApiKey "k", "Alice", none, 1000, true, none, none, 0⟩ [] 1 0
    rfl (by decide) rfl (by rfl) rfl rfl

/-- C2: A request presenting a key whose store match is revoked
(`is_active` false) or expired is denied with 403 with the store left
exactly as it was — no usage record appended, `last_used_at` untouched,
historical records intact — and the decision is the same whatever the
usage table and the count query's health, so the rate-limit check plays
no part and the key consumes no rate-limit budget. -/
theorem claim_C2_revoked_or_expired_before_rate_check
    (s : String) (sb : StoreBehavior) (now : Int) (req : ReqMeta)
    (updFail insFail cf2 : Bool) (usage2 : List UsageRecord)
    (kd : ApiKeyRow) (tl : List ApiKeyRow)
    (hs : s ≠ "") (hlf : sb.lookupFails = false)
    (hlook : lookupByHash sb.keys (ApiKeyAuth.hashApiKey s) = kd :: tl)
    (hrev : kd.is_active = false ∨ isExpired kd.expires_at now = true) :
    decisionStatus (stepRequest (some s) sb now req updFail insFail).1 = 403 ∧
    (stepRequest (some s) sb now req updFail insFail).2 = sb ∧
    requireApiKeyDecision (some s) { sb with usage := usage2, countFails := cf2 } now =
      requireApiKeyDecision (some s) sb now := by
  have h403 := decision_403_of_revoked_or_expired s sb now kd tl hs hlf hlook hrev
  have hstep : stepRequest (some s) sb now req updFail insFail =
      (requireApiKeyDecision (some s) sb now, sb) := by
    unfold stepRequest
    cases hd : requireApiKeyDecision (some s) sb now
    · simp
    · rw [hd] at h403; simp [decisionStatus] at h403
  refine ⟨by rw [hstep]; exact h403, by rw [hstep], ?_⟩
  have h403b := decision_403_of_revoked_or_expired s
      { sb with usage := usage2, countFails := cf2 } now kd tl hs hlf hlook hrev
  revert h403 h403b
  unfold requireApiKeyDecision
  have hmiss : isMissingKey (some s) = false := by simp [isMissingKey, hs]
  rw [hmiss]
  simp only [Bool.false_eq_true, if_false, Option.getD_some, hlf, hlook]
  cases hact : kd.is_active
  · intro _ _; rfl
  · rcases hrev with h | h
    · rw [hact] at h; cases h
    · simp [h]

/-- Witness for C2 at a concrete store: a revoked key with one
historical usage record; the 403 denial leaves the store unchanged. -/
theorem claim_C2_witness :
    decisionStatus (stepRequest (some "k")
        ⟨[⟨1, ApiKeyAuth.hashApiKey "k", "Alice", none, 1000, false, none, none, 0⟩],
         [⟨1, "/movies", "GET", none, none, 3⟩], false, false⟩ 5
        ⟨"/movies", "GET", none, none⟩ false false).1 = 403 ∧
    (stepRequest (some "k")
        ⟨[⟨1, ApiKeyAuth.hashApiKey "k", "Alice", none, 1000, false, none, none, 0⟩],
         [⟨1, "/movies", "GET", none, none, 3⟩], false, false⟩ 5
        ⟨"/movies", "GET", none, none⟩ false false).2 =
      ⟨[⟨1, ApiKeyAuth.hashApiKey "k", "Alice", none, 1000, false, none, none, 0⟩],
       [⟨1, "/movies", "GET", none, none, 3⟩], false, false⟩ ∧
    requireApiKeyDecision (some "k")
        { (⟨[⟨1, ApiKeyAuth.hashApiKey "k", "Alice", none, 1000, false, none, none, 0⟩],
            [⟨1, "/movies", "GET", none, none, 3⟩], false, false⟩ : StoreBehavior) with
          usage := [], countFails := true } 5 =
      requireApiKeyDecision (some "k")
        ⟨[⟨1, ApiKeyAuth.hashApiKey "k", "Alice", none, 1000, false, none, none, 0⟩],
         [⟨1, "/movies", "GET", none, none, 3⟩], false, false⟩ 5 :=
  claim_C2_revoked_or_expired_before_rate_check "k"
    ⟨[⟨1, ApiKeyAuth.hashApiKey "k", "Alice", none, 1000, false, none, none, 0⟩],
     [⟨1, "/movies", "GET", none, none, 3⟩], false, false⟩ 5
    ⟨"/movies", "GET", none, none⟩ false false true []
    ⟨1, ApiKeyAuth.hashApiKey "k", "Alice", none, 1000, false, none, none, 0⟩ []
    (by decide) rfl (by rfl) (Or.inl rfl)

/-- With a healthy store and a matching active unexpired key, the
decision is allow or 429 exactly according to the window count. -/
lemma decision_of_count (s : String) (sb : StoreBehavior) (now : Int)
    (kd : ApiKeyRow) (tl : List ApiKeyRow)
    (hs : s ≠ "") (hlf : sb.lookupFails = false) (hcf : sb.countFails = false)
    (hlook : lookupByHash sb.keys (ApiKeyAuth.hashApiKey s) = kd :: tl)
    (hact : kd.is_active = true) (hexp : isExpired kd.expires_at now = false) :
    requireApiKeyDecision (some s) sb now =
      if countUsageInWindow sb.usage kd.api_key_id now < kd.rate_limit then
        .next ⟨kd.api_key_id, kd.name, kd.email, kd.rate_limit⟩
      else
        .respond 429 "Rate limit exceeded. Please try again later." := by
  unfold requireApiKeyDecision
  rw [show isMissingKey (some s) = false by simp [isMissingKey, hs]]
  simp only [Bool.false_eq_true, if_false, Option.getD_some, hlf, hlook, hact, hexp]
  by_cases h : countUsageInWindow sb.usage kd.api_key_id now < kd.rate_limit <;>
    simp [checkRateLimit, hcf, h]

/-- When every usage row belongs to the key and falls inside the
window, the window count is the full table size. -/
lemma countUsageInWindow_full (usage : List UsageRecord) (kid : Nat) (now : Int)
    (h : ∀ r ∈ usage, r.api_key_id = kid ∧ r.requested_at > now - 3600) :
    countUsageInWindow usage kid now = usage.length := by
  unfold countUsageInWindow
  rw [List.filter_eq_self.mpr]
  intro r hr
  obtain ⟨h1, h2⟩ := h r hr
  simp [h1, h2]

/-- The inductive engine behind the rate-limit boundary property: if
the store holds exactly the one key (rate limit `N`, active, no
expiry), all `m` usage rows so far belong to it and lie in the window
of every remaining request time, and `m + #times = N + 1` with
`m ≤ N`, then the remaining requests are allowed until the table
reaches `N` rows and the last request is denied with 429. -/
lemma trace_aux (s : String) (kid : Nat) (nm : String) (em : Option String) (N : Nat)
    (ca : Int) (req : ReqMeta) (hs : s ≠ "") :
    ∀ (times : List Int) (sb : StoreBehavior),
      sb.lookupFails = false → sb.countFails = false →
      (∃ lu, sb.keys = [⟨kid, ApiKeyAuth.hashApiKey s, nm, em, N, true, none, lu, ca⟩]) →
      (∀ r ∈ sb.usage, r.api_key_id = kid ∧ ∀ t ∈ times, r.requested_at > t - 3600) →
      (∀ t1 ∈ times, ∀ t2 ∈ times, t1 - t2 < 3600) →
      sb.usage.length + times.length = N + 1 →
      sb.usage.length ≤ N →
      (runTrace (some s) req sb times).1 =
        List.replicate (N - sb.usage.length) (.next ⟨kid, nm, em, N⟩) ++
          [.respond 429 "Rate limit exceeded. Please try again later."] ∧
      (runTrace (some s) req sb times).2.usage.length = N := by
  intro times
  induction times with
  | nil =>
      intro sb _ _ _ _ _ hlen hle
      exact absurd hlen (by simp; omega)
  | cons t ts ih =>
      intro sb hlf hcf hkeys husage hwin hlen hle
      simp only [List.length_cons] at hlen
      obtain ⟨lu, hk⟩ := hkeys
      have hlook : lookupByHash sb.keys (ApiKeyAuth.hashApiKey s) =
          [⟨kid, ApiKeyAuth.hashApiKey s, nm, em, N, true, none, lu, ca⟩] := by
        rw [hk]; simp [lookupByHash]
      have hcount : countUsageInWindow sb.usage kid t = sb.usage.length := by
        apply countUsageInWindow_full
        intro r hr
        exact ⟨(husage r hr).1, (husage r hr).2 t (by simp)⟩
      have hdec := decision_of_count s sb t
        ⟨kid, ApiKeyAuth.hashApiKey s, nm, em, N, true, none, lu, ca⟩ []
        hs hlf hcf hlook rfl rfl
      simp only [hcount] at hdec
      by_cases hm : sb.usage.length < N
      · -- this request is allowed and appends its usage row
        rw [if_pos hm] at hdec
        have hstep : stepRequest (some s) sb t req false false =
            (.next ⟨kid, nm, em, N⟩,
             { sb with
                 keys := updateLastUsed sb.keys kid t,
                 usage := logApiKeyUsage sb.usage kid req.path req.method req.ip req.agent t }) := by
          unfold stepRequest
          rw [hdec]
          simp
        have ihres := ih
          { sb with
              keys := updateLastUsed sb.keys kid t,
              usage := logApiKeyUsage sb.usage kid req.path req.method req.ip req.agent t }
          hlf hcf
          (by
            refine ⟨some t, ?_⟩
            rw [hk]
            simp [updateLastUsed])
          (by
            intro r hr
            unfold logApiKeyUsage at hr
            rcases List.mem_append.mp hr with hold | hnew
            · refine ⟨(husage r hold).1, ?_⟩
              intro t2 ht2
              exact (husage r hold).2 t2 (by simp [ht2])
            · simp at hnew
              subst hnew
              refine ⟨rfl, ?_⟩
              intro t2 ht2
              have := hwin t2 (by simp [ht2]) t (by simp)
              simp only []
              omega)
          (by
            intro t1 h1 t2 h2
            exact hwin t1 (by simp [h1]) t2 (by simp [h2]))
          (by simp [logApiKeyUsage]; omega)
          (by simp [logApiKeyUsage]; omega)
        have hrep : N - sb.usage.length = (N - (sb.usage.length + 1)) + 1 := by omega
        constructor
        · show (runTrace (some s) req sb (t :: ts)).1 = _
          unfold runTrace
          rw [hstep]
          simp only []
          rw [ihres.1]
          simp [logApiKeyUsage, hrep, List.replicate_succ]
        · show (runTrace (some s) req sb (t :: ts)).2.usage.length = N
          unfold runTrace
          rw [hstep]
          simp only []
          exact ihres.2
      · -- the table already holds N rows: denied, store unchanged, done
        have hmN : sb.usage.length = N := by omega
        have hts : ts = [] := by
          have h0 : ts.length = 0 := by omega
          exact List.length_eq_zero.mp h0
        rw [if_neg hm] at hdec
        have hstep : stepRequest (some s) sb t req false false =
            (.respond 429 "Rate limit exceeded. Please try again later.", sb) := by
          unfold stepRequest
          rw [hdec]
        subst hts
        constructor
        · unfold runTrace
          rw [hstep]
          simp [runTrace, hmN]
        · unfold runTrace
          rw [hstep]
          simp [runTrace, hmN]

/-- C3: The rate limiter allows a request iff the count of usage
records for the key with `requested_at` inside the trailing 60 minutes
is strictly below the key's `rate_limit` (first conjunct, for any
healthy store); consequently a key with `rate_limit = N` and an empty
usage table, presented on `N + 1` requests whose times all lie within
one 60-minute lookback, is allowed exactly the first `N` times and
denied with 429 on the `(N+1)`-th, its usage table ending with the `N`
records appended by the allowed requests only (the denied request
appends nothing, since a request's own record is inserted only after
its rate check passes). -/
theorem claim_C3_sliding_window_boundary
    (sb2 : StoreBehavior) (kid2 lim2 : Nat) (now2 : Int)
    (s : String) (kid : Nat) (nm : String) (em : Option String) (N : Nat)
    (lu0 : Option Int) (ca : Int) (req : ReqMeta) (times : List Int)
    (hcf2 : sb2.countFails = false)
    (hs : s ≠ "")
    (hlen : times.length = N + 1)
    (hwin : ∀ t1 ∈ times, ∀ t2 ∈ times, t1 - t2 < 3600) :
    (checkRateLimit sb2 kid2 lim2 now2 = true ↔
      countUsageInWindow sb2.usage kid2 now2 < lim2) ∧
    (runTrace (some s) req
        ⟨[⟨kid, ApiKeyAuth.hashApiKey s, nm, em, N, true, none, lu0, ca⟩], [], false, false⟩
        times).1 =
      List.replicate N (.next ⟨kid, nm, em, N⟩) ++
        [.respond 429 "Rate limit exceeded. Please try again later."] ∧
    (runTrace (some s) req
        ⟨[⟨kid, ApiKeyAuth.hashApiKey s, nm, em, N, true, none, lu0, ca⟩], [], false, false⟩
        times).2.usage.length = N := by
  have htr := trace_aux s kid nm em N ca req hs times
    ⟨[⟨kid, ApiKeyAuth.hashApiKey s, nm, em, N, true, none, lu0, ca⟩], [], false, false⟩
    rfl rfl ⟨lu0, rfl⟩ (by intro r hr; cases hr) hwin (by simpa using hlen) (by simp)
  refine ⟨?_, ?_, htr.2⟩
  · simp [checkRateLimit, hcf2]
  · simpa using htr.1

/-- Witness for C3 with `rate_limit = 1` and two requests ten seconds
apart: the first is allowed, the second denied with 429, and one usage
record is appended. -/
theorem claim_C3_witness :
    (checkRateLimit ⟨[], [], false, false⟩ 1 5 0 = true ↔
      countUsageInWindow ([] : List UsageRecord) 1 0 < 5) ∧
    (runTrace (some "k") ⟨"/movies", "GET", none, none⟩
        ⟨[⟨1, ApiKeyAuth.hashApiKey "k", "Alice", none, 1, true, none, none, 0⟩],
         [], false, false⟩ [10, 20]).1 =
      List.replicate 1 (.next ⟨1, "Alice", none, 1⟩) ++
        [.respond 429 "Rate limit exceeded. Please try again later."] ∧
    (runTrace (some "k") ⟨"/movies", "GET", none, none⟩
        ⟨[⟨1, ApiKeyAuth.hashApiKey "k", "Alice", none, 1, true, none, none, 0⟩],
         [], false, false⟩ [10, 20]).2.usage.length = 1 :=
  claim_C3_sliding_window_boundary ⟨[], [], false, false⟩ 1 5 0
    "k" 1 "Alice" none 1 none 0 ⟨"/movies", "GET", none, none⟩ [10, 20]
    rfl (by decide) rfl (by decide)

/-- No base64 alphabet character is `=`. -/
lemma b64At_ne_eq (n : Nat) : b64At n ≠ '=' := by
  have hlt : n % 64 < 64 := Nat.mod_lt _ (by norm_num)
  have h : ∀ m, m < 64 → b64Alphabet.getD m 'A' ≠ '=' := by decide
  exact h (n % 64) hlt

/-- The URL-safe substitution never produces `=` from a non-`=`. -/
lemma urlSafeChar_ne_eq (c : Char) (h : c ≠ '=') : urlSafeChar c ≠ '=' := by
  unfold urlSafeChar
  by_cases h1 : c = '+'
  · simp [h1]
  · by_cases h2 : c = '/'
    · simp [h1, h2]
    · simp [h1, h2, h]

/-- The URL-safe substitution never outputs `+` or `/`. -/
lemma urlSafeChar_ne_plus_slash (c : Char) : urlSafeChar c ≠ '+' ∧ urlSafeChar c ≠ '/' := by
  unfold urlSafeChar
  by_cases h1 : c = '+'
  · simp [h1]
  · by_cases h2 : c = '/'
    · simp [h1, h2]
    · simp [h1, h2]

/-- Length of the URL-safe, padding-stripped encoding: four characters
per full three-byte group, and for a trailing short group of `r`
bytes, `r + 1` characters survive the stripping of the `=` padding. -/
lemma stripped_b64_length : ∀ l : List Nat,
    (((base64Chars l).map urlSafeChar).filter (fun c => decide (c ≠ '='))).length =
      4 * (l.length / 3) + (if l.length % 3 = 0 then 0 else l.length % 3 + 1)
  | [] => by simp [base64Chars]
  | [b1] => by
      have h1 := urlSafeChar_ne_eq _ (b64At_ne_eq (b1 >>> 2))
      have h2 := urlSafeChar_ne_eq _ (b64At_ne_eq ((b1 &&& 3) <<< 4))
      have h0 : urlSafeChar '=' = '=' := rfl
      simp [base64Chars, List.filter_cons, h1, h2, h0]
  | [b1, b2] => by
      have h1 := urlSafeChar_ne_eq _ (b64At_ne_eq (b1 >>> 2))
      have h2 := urlSafeChar_ne_eq _ (b64At_ne_eq (((b1 &&& 3) <<< 4) ||| (b2 >>> 4)))
      have h3 := urlSafeChar_ne_eq _ (b64At_ne_eq ((b2 &&& 15) <<< 2))
      have h0 : urlSafeChar '=' = '=' := rfl
      simp [base64Chars, List.filter_cons, h1, h2, h3, h0]
  | b1 :: b2 :: b3 :: rest => by
      have ih := stripped_b64_length rest
      simp only [decide_not] at ih
      have h1 := urlSafeChar_ne_eq _ (b64At_ne_eq (b1 >>> 2))
      have h2 := urlSafeChar_ne_eq _ (b64At_ne_eq (((b1 &&& 3) <<< 4) ||| (b2 >>> 4)))
      have h3 := urlSafeChar_ne_eq _ (b64At_ne_eq (((b2 &&& 15) <<< 2) ||| (b3 >>> 6)))
      have h4 := urlSafeChar_ne_eq _ (b64At_ne_eq (b3 &&& 63))
      simp [base64Chars, List.filter_cons, h1, h2, h3, h4, ih]
      have hmod : (rest.length + 3) % 3 = rest.length % 3 := by omega
      have hdiv : (rest.length + 3) / 3 = rest.length / 3 + 1 := by omega
      by_cases h0 : rest.length % 3 = 0 <;> simp [hmod, hdiv, h0] <;> omega

/-- Every character of a generated secret avoids `+`, `/` and `=`. -/
lemma generateSecureApiKey_charset (l : List Nat) :
    ∀ c ∈ (generateSecureApiKey l).data, c ≠ '+' ∧ c ≠ '/' ∧ c ≠ '=' := by
  intro c hc
  unfold generateSecureApiKey at hc
  obtain ⟨hcm, hne⟩ := List.mem_filter.mp hc
  obtain ⟨c0, _, rfl⟩ := List.mem_map.mp hcm
  exact ⟨(urlSafeChar_ne_plus_slash c0).1, (urlSafeChar_ne_plus_slash c0).2,
    by simpa using hne⟩

/-- A generated secret from 32 bytes has 43 characters. -/
lemma generateSecureApiKey_length (l : List Nat) (hlen : l.length = 32) :
    (generateSecureApiKey l).length = 43 := by
  unfold generateSecureApiKey
  show (((base64Chars l).map urlSafeChar).filter (fun c => decide (c ≠ '='))).length = 43
  rw [stripped_b64_length l, hlen]
  decide

/-- C7: Every generated secret derived from 32 random bytes is
URL-safe base64: non-empty, free of `+`, `/` and `=` (padding stripped,
`+` and `/` substituted), with fixed printable length 43. -/
theorem claim_C7_secret_format (bytes : List Nat)
    (hlen : bytes.length = 32) (_hbytes : ∀ b ∈ bytes, b < 256) :
    (generateSecureApiKey bytes).length = 43 ∧
    generateSecureApiKey bytes ≠ "" ∧
    ∀ c ∈ (generateSecureApiKey bytes).data, c ≠ '+' ∧ c ≠ '/' ∧ c ≠ '=' := by
  refine ⟨generateSecureApiKey_length bytes hlen, ?_, generateSecureApiKey_charset bytes⟩
  intro h
  have h43 := generateSecureApiKey_length bytes hlen
  rw [h] at h43
  simp at h43

/-- Witness for C7 on a concrete draw of 32 bytes. -/
theorem claim_C7_witness :
    (generateSecureApiKey (List.replicate 32 7)).length = 43 ∧
    generateSecureApiKey (List.replicate 32 7) ≠ "" ∧
    ∀ c ∈ (generateSecureApiKey (List.replicate 32 7)).data,
      c ≠ '+' ∧ c ≠ '/' ∧ c ≠ '=' :=
  claim_C7_secret_format (List.replicate 32 7) rfl (by decide)

/-- A SHA-256 hex digest has 64 characters. -/
lemma sha256hex_length (s : String) : (sha256hex s).length = 64 := by
  unfold sha256hex wordToHex
  simp [String.length]

/-- C9: On every successful issuance, exactly one `api_keys` row is
appended, whose stored secret is the SHA-256 hex digest of the
generated plaintext — never the plaintext itself, which the digest
cannot equal — with `is_active = true` and `rate_limit = 1000`, the
usage table untouched, and the 201 response carrying the plaintext key,
name, optional email, rate limit 1000 and `created_at`. -/
theorem claim_C9_issuance_persists_hash_only
    (body : ValidatedBody) (bytes : List Nat) (newId : Nat) (now : Int) (sb : StoreBehavior)
    (hlen : bytes.length = 32) (_hbytes : ∀ b ∈ bytes, b < 256) :
    (generateApiKeyController body bytes newId now sb false).2.keys =
      sb.keys ++ [⟨newId, sha256hex (generateSecureApiKey bytes), body.name, body.email,
        1000, true, none, none, now⟩] ∧
    sha256hex (generateSecureApiKey bytes) ≠ generateSecureApiKey bytes ∧
    (generateApiKeyController body bytes newId now sb false).2.usage = sb.usage ∧
    (generateApiKeyController body bytes newId now sb false).2.lookupFails = sb.lookupFails ∧
    (generateApiKeyController body bytes newId now sb false).2.countFails = sb.countFails ∧
    (generateApiKeyController body bytes newId now sb false).1 =
      .created (generateSecureApiKey bytes) body.name body.email 1000 now ∧
    statusOf (generateApiKeyController body bytes newId now sb false).1 = 201 := by
  refine ⟨rfl, ?_, rfl, rfl, rfl, rfl, rfl⟩
  intro h
  have h64 := sha256hex_length (generateSecureApiKey bytes)
  rw [h, generateSecureApiKey_length bytes hlen] at h64
  simp at h64

/-- Witness for C9 on a concrete issuance into an empty store. -/
theorem claim_C9_witness :
    (generateApiKeyController ⟨"Alice", some "alice@example.com"⟩ (List.replicate 32 7) 1 0
        ⟨[], [], false, false⟩ false).2.keys =
      [] ++ [⟨1, sha256hex (generateSecureApiKey (List.replicate 32 7)), "Alice",
        some "alice@example.com", 1000, true, none, none, 0⟩] ∧
    sha256hex (generateSecureApiKey (List.replicate 32 7)) ≠
      generateSecureApiKey (List.replicate 32 7) ∧
    (generateApiKeyController ⟨"Alice", some "alice@example.com"⟩ (List.replicate 32 7) 1 0
        ⟨[], [], false, false⟩ false).2.usage = [] ∧
    (generateApiKeyController ⟨"Alice", some "alice@example.com"⟩ (List.replicate 32 7) 1 0
        ⟨[], [], false, false⟩ false).2.lookupFails = false ∧
    (generateApiKeyController ⟨"Alice", some "alice@example.com"⟩ (List.replicate 32 7) 1 0
        ⟨[], [], false, false⟩ false).2.countFails = false ∧
    (generateApiKeyController ⟨"Alice", some "alice@example.com"⟩ (List.replicate 32 7) 1 0
        ⟨[], [], false, false⟩ false).1 =
      .created (generateSecureApiKey (List.replicate 32 7)) "Alice"
        (some "alice@example.com") 1000 0 ∧
    statusOf (generateApiKeyController ⟨"Alice", some "alice@example.com"⟩
        (List.replicate 32 7) 1 0 ⟨[], [], false, false⟩ false).1 = 201 :=
  claim_C9_issuance_persists_hash_only ⟨"Alice", some "alice@example.com"⟩
    (List.replicate 32 7) 1 0 ⟨[], [], false, false⟩ rfl (by decide)

/-- C6: A key freshly issued by the issuance handler passes the
authentication middleware's hash-and-lookup step immediately: the hash
computed at authentication time (`apiKeyAuth.ts`'s `hashApiKey`) equals
the hashed secret persisted at issuance (`apiKeyControllers.ts`'s
`hashApiKey`), the lookup finds exactly the new row, and the decision
is never a 401. -/
theorem claim_C6_issue_then_authenticate_round_trip
    (body : ValidatedBody) (bytes : List Nat) (newId : Nat) (nowIss nowAuth : Int)
    (sb : StoreBehavior)
    (hlen : bytes.length = 32)
    (hlf : sb.lookupFails = false)
    (hfresh : ∀ k ∈ sb.keys,
      k.api_key ≠ ApiKeyAuth.hashApiKey (generateSecureApiKey bytes)) :
    ApiKeyAuth.hashApiKey (generateSecureApiKey bytes) =
      ApiKeyControllers.hashApiKey (generateSecureApiKey bytes) ∧
    lookupByHash (generateApiKeyController body bytes newId nowIss sb false).2.keys
        (ApiKeyAuth.hashApiKey (generateSecureApiKey bytes)) =
      [⟨newId, ApiKeyControllers.hashApiKey (generateSecureApiKey bytes), body.name,
        body.email, 1000, true, none, none, nowIss⟩] ∧
    decisionStatus (requireApiKeyDecision (some (generateSecureApiKey bytes))
        (generateApiKeyController body bytes newId nowIss sb false).2 nowAuth) ≠ 401 := by
  have hne : generateSecureApiKey bytes ≠ "" := by
    intro h
    have h43 := generateSecureApiKey_length bytes hlen
    rw [h] at h43
    simp at h43
  have hlook : lookupByHash (generateApiKeyController body bytes newId nowIss sb false).2.keys
      (ApiKeyAuth.hashApiKey (generateSecureApiKey bytes)) =
      [⟨newId, ApiKeyControllers.hashApiKey (generateSecureApiKey bytes), body.name,
        body.email, 1000, true, none, none, nowIss⟩] := by
    show lookupByHash (sb.keys ++ [_]) _ = _
    unfold lookupByHash
    rw [List.filter_append]
    rw [List.filter_eq_nil_iff.mpr (by
      intro k hk
      simpa using hfresh k hk)]
    simp [ApiKeyAuth.hashApiKey, ApiKeyControllers.hashApiKey]
  refine ⟨rfl, hlook, ?_⟩
  have hlf2 : (generateApiKeyController body bytes newId nowIss sb false).2.lookupFails =
      false := hlf
  unfold requireApiKeyDecision
  rw [show isMissingKey (some (generateSecureApiKey bytes)) = false from by
    simp [isMissingKey, hne]]
  simp only [Bool.false_eq_true, if_false, Option.getD_some, hlf2, hlook]
  cases h : checkRateLimit (generateApiKeyController body bytes newId nowIss sb false).2
      newId 1000 nowAuth <;>
    simp [h, decisionStatus, isExpired]

/-- Witness for C6: issue into an empty store, then authenticate with
the returned plaintext. -/
theorem claim_C6_witness :
    ApiKeyAuth.hashApiKey (generateSecureApiKey (List.replicate 32 7)) =
      ApiKeyControllers.hashApiKey (generateSecureApiKey (List.replicate 32 7)) ∧
    lookupByHash (generateApiKeyController ⟨"Alice", none⟩ (List.replicate 32 7) 1 0
          ⟨[], [], false, false⟩ false).2.keys
        (ApiKeyAuth.hashApiKey (generateSecureApiKey (List.replicate 32 7))) =
      [⟨1, ApiKeyControllers.hashApiKey (generateSecureApiKey (List.replicate 32 7)),
        "Alice", none, 1000, true, none, none, 0⟩] ∧
    decisionStatus (requireApiKeyDecision (some (generateSecureApiKey (List.replicate 32 7)))
        (generateApiKeyController ⟨"Alice", none⟩ (List.replicate 32 7) 1 0
          ⟨[], [], false, false⟩ false).2 5) ≠ 401 :=
  claim_C6_issue_then_authenticate_round_trip ⟨"Alice", none⟩ (List.replicate 32 7) 1 0 5
    ⟨[], [], false, false⟩ rfl rfl (by simp)

/-- The issuance-input acceptance condition exactly as the
specification words it: the name must have 1–255 characters
AFTER trimming and whitespace normalization; the email, when present
and non-empty, must be a valid email of at most 255 characters. -/
def specAccepts (body : RequestBody) : Bool :=
  (match body.name with
   | none => false
   | some s =>
       decide (1 ≤ (normalizeWhitespace (jsTrim s)).length) &&
         decide ((normalizeWhitespace (jsTrim s)).length ≤ 255)) &&
  (match body.email with
   | none => true
   | some s => (s == "") || (isValidEmail s && decide (s.length ≤ 255)))

/-- The name branch accepts exactly the present strings whose raw
length is between 1 and 255. -/
lemma validateName_ok_iff (n : Option String) :
    (∃ v, validateName n = .ok v) ↔ ∃ s, n = some s ∧ 1 ≤ s.length ∧ s.length ≤ 255 := by
  cases n with
  | none => simp [validateName]
  | some s =>
      by_cases h1 : s.length < 1 <;> by_cases h2 : 255 < s.length <;>
        simp [validateName, h1, h2] <;> omega

/-- The email branch accepts exactly: absent, empty, or a raw-valid
email of raw length at most 255. -/
lemma validateEmail_ok_iff (e : Option String) :
    (∃ v, validateEmail e = .ok v) ↔
      (e = none ∨ e = some "" ∨
        ∃ s, e = some s ∧ isValidEmail s = true ∧ s.length ≤ 255) := by
  cases e with
  | none => simp [validateEmail]
  | some s =>
      by_cases h0 : s = ""
      · simp [validateEmail, h0]
      · by_cases h1 : isValidEmail s <;> by_cases h2 : 255 < s.length <;>
          simp [validateEmail, h0, h1, h2] <;> omega

/-- C8 counterexample: the claim's acceptance condition ("1–255
characters after trimming and whitespace normalization") rejects a
whitespace-only name, yet the validator accepts the body
`{name: " "}` — the zod chain `min(1).max(255).trim().transform(...)`
checks the bounds on the raw value before trimming, so the
one-character raw string passes and is then normalized to the empty
name. -/
theorem claim_C8_counterexample :
    validateGenerateApiKey ⟨some " ", none⟩ = .ok ⟨"", none⟩ ∧
    specAccepts ⟨some " ", none⟩ = false := ⟨rfl, rfl⟩

/-- C8 (amended): the validator accepts iff the name is a string whose
RAW length is 1–255 — the bounds are checked before trimming, with
trimming and whitespace normalization applied to the accepted value
afterwards — and the email is absent, empty (treated as absent), or a
raw string passing the email pattern with raw length at most 255,
lowercased and trimmed afterwards; every rejection is a 400 listing one
`{field, message}` entry per failing field, and a rejected request
performs no insert into the Key Store. -/
theorem claim_C8_validation_characterization (body : RequestBody) (bytes : List Nat)
    (newId : Nat) (now : Int) (sb : StoreBehavior) (insertFails : Bool) :
    ((∃ vb, validateGenerateApiKey body = .ok vb) ↔
      ((∃ s, body.name = some s ∧ 1 ≤ s.length ∧ s.length ≤ 255) ∧
       (body.email = none ∨ body.email = some "" ∨
         ∃ e, body.email = some e ∧ isValidEmail e = true ∧ e.length ≤ 255))) ∧
    (∀ s vb, body.name = some s → validateGenerateApiKey body = .ok vb →
      vb.name = normalizeWhitespace (jsTrim s)) ∧
    (∀ vb, body.email = none ∨ body.email = some "" → validateGenerateApiKey body = .ok vb →
      vb.email = none) ∧
    (∀ e vb, body.email = some e → e ≠ "" → validateGenerateApiKey body = .ok vb →
      vb.email = some (jsToLower (jsTrim e))) ∧
    (∀ errs, validateGenerateApiKey body = .error errs →
      errs ≠ [] ∧
      statusOf (.badRequest errs) = 400 ∧
      handleGenerateApiKey body bytes newId now sb insertFails = (.badRequest errs, sb)) := by
  refine ⟨?_, ?_, ?_, ?_, ?_⟩
  · constructor
    · intro ⟨vb, hvb⟩
      unfold validateGenerateApiKey at hvb
      rcases hn : validateName body.name with en | n <;>
        rcases he : validateEmail body.email with ee | e <;>
        rw [hn, he] at hvb <;> simp at hvb
      exact ⟨(validateName_ok_iff body.name).mp ⟨n, hn⟩,
        (validateEmail_ok_iff body.email).mp ⟨e, he⟩⟩
    · intro ⟨h1, h2⟩
      obtain ⟨n, hn⟩ := (validateName_ok_iff body.name).mpr h1
      obtain ⟨e, he⟩ := (validateEmail_ok_iff body.email).mpr h2
      exact ⟨⟨n, e⟩, by unfold validateGenerateApiKey; rw [hn, he]⟩
  · intro s vb hs hvb
    unfold validateGenerateApiKey at hvb
    rcases hn : validateName body.name with en | n <;>
      rcases he : validateEmail body.email with ee | e <;>
      rw [hn, he] at hvb <;> simp at hvb
    rw [hs] at hn
    unfold validateName at hn
    by_cases h1 : s.length < 1 <;> by_cases h2 : 255 < s.length <;>
      simp [h1, h2] at hn
    rw [← hvb]
    first
    | exact hn
    | exact hn.symm
  · intro vb habs hvb
    unfold validateGenerateApiKey at hvb
    rcases hn : validateName body.name with en | n <;>
      rcases he : validateEmail body.email with ee | e <;>
      rw [hn, he] at hvb <;> simp at hvb
    rcases habs with h | h <;> rw [h] at he <;> unfold validateEmail at he <;>
      simp at he <;> rw [← hvb] <;>
      first
      | exact he
      | exact he.symm
  · intro e vb he0 hne hvb
    unfold validateGenerateApiKey at hvb
    rcases hn : validateName body.name with en | n <;>
      rcases he : validateEmail body.email with ee | em <;>
      rw [hn, he] at hvb <;> simp at hvb
    rw [he0] at he
    unfold validateEmail at he
    simp only [hne, if_false, beq_iff_eq] at he
    by_cases h1 : isValidEmail e <;> by_cases h2 : 255 < e.length <;>
      simp [h1, h2, hne] at he
    rw [← hvb]
    first
    | exact he
    | exact he.symm
  · intro errs herr
    have hnil : errs ≠ [] := by
      unfold validateGenerateApiKey at herr
      rcases hn : validateName body.name with en | n <;>
        rcases he : validateEmail body.email with ee | e <;>
        rw [hn, he] at herr <;> simp at herr <;> simp [← herr]
    refine ⟨hnil, rfl, ?_⟩
    unfold handleGenerateApiKey
    rw [herr]

/-- Witness for the amended C8: a body with no name is rejected with
the single name-scoped error, 400, and an unchanged store. -/
theorem claim_C8_witness :
    ([⟨"name", "Name is required"⟩, ⟨"email", "Invalid email address"⟩] :
        List FieldError) ≠ [] ∧
    statusOf (.badRequest
        [⟨"name", "Name is required"⟩, ⟨"email", "Invalid email address"⟩]) = 400 ∧
    handleGenerateApiKey ⟨none, some "nope"⟩ [] 1 0 ⟨[], [], false, false⟩ false =
      (.badRequest [⟨"name", "Name is required"⟩, ⟨"email", "Invalid email address"⟩],
        ⟨[], [], false, false⟩) :=
  (claim_C8_validation_characterization ⟨none, some "nope"⟩ [] 1 0
      ⟨[], [], false, false⟩ false).2.2.2.2
    [⟨"name", "Name is required"⟩, ⟨"email", "Invalid email address"⟩] rfl

end TcssApi
